import Mathlib

/-!
Verification development for the auto-node synchronization engine
(`src/main.ts` of the obsidian-auto-node repository).

Strings are modelled as `List Char`; JavaScript string primitives
(`indexOf`, `includes`, `slice`, `trim`, `toLowerCase`, ...) are embedded
as executable functions over `List Char`.  Case mapping is modelled at
ASCII granularity (the code calls the host `toLowerCase`/`toUpperCase`).
The three regular expressions of `normalizeMarkers`, the frontmatter
pattern of `ensureIntroSection` and the word-boundary pattern of
`containsKeyword` are embedded as deterministic matchers that follow the
backtracking behaviour of the JavaScript engine on those concrete
patterns.
-/

namespace AutoNode

/-- Abbreviation: the character list of a string literal. -/
def str (s : String) : List Char := s.data

/-- JS whitespace (ASCII fragment): space, tab, newline, carriage return,
vertical tab, form feed. -/
def isWs (c : Char) : Bool :=
  c = ' ' || c = '\t' || c = '\n' || c = '\r' || c = '\x0b' || c = '\x0c'

/-- ASCII model of JS `toLowerCase` on a single character. -/
def lowerChar (c : Char) : Char :=
  if 'A' ≤ c ∧ c ≤ 'Z' then Char.ofNat (c.toNat + 32) else c

/-- ASCII model of JS `toUpperCase` on a single character. -/
def upperChar (c : Char) : Char :=
  if 'a' ≤ c ∧ c ≤ 'z' then Char.ofNat (c.toNat - 32) else c

/-- JS `s.toLowerCase()` (ASCII model). -/
def lowerL (s : List Char) : List Char := s.map lowerChar

/-- JS `s.toUpperCase()` (ASCII model). -/
def upperL (s : List Char) : List Char := s.map upperChar

/-- JS `s.trimStart()`. -/
def trimStart (s : List Char) : List Char := s.dropWhile isWs

/-- JS `s.trimEnd()`. -/
def trimEnd (s : List Char) : List Char := (s.reverse.dropWhile isWs).reverse

/-- JS `s.trim()`. -/
def trim (s : List Char) : List Char := trimStart (trimEnd s)

/-- Does `n` occur as a prefix of `s`? -/
def prefixMatches : List Char → List Char → Bool
  | [], _ => true
  | _ :: _, [] => false
  | a :: as, b :: bs => a = b && prefixMatches as bs

/-- JS `s.includes(n)`. -/
def occursIn (n : List Char) : List Char → Bool
  | [] => prefixMatches n []
  | c :: cs => prefixMatches n (c :: cs) || occursIn n cs

/-- JS `s.indexOf(n)`, as an `Option Nat` (`none` for `-1`). -/
def firstIndexOf? (n : List Char) : List Char → Option Nat
  | [] => if prefixMatches n [] then some 0 else none
  | c :: cs =>
    if prefixMatches n (c :: cs) then some 0
    else (firstIndexOf? n cs).map (· + 1)

/-- Case-insensitive (ASCII) prefix test, for the `i` regex flag. -/
def ciPrefixMatches : List Char → List Char → Bool
  | [], _ => true
  | _ :: _, [] => false
  | a :: as, b :: bs => lowerChar a = lowerChar b && ciPrefixMatches as bs

/-- Length of the leading whitespace run (regex `\s*`, greedy). -/
def wsRun : List Char → Nat
  | [] => 0
  | c :: cs => if isWs c then wsRun cs + 1 else 0

/-- Index of the first `>` character, if any. -/
def firstGt? : List Char → Option Nat
  | [] => none
  | c :: cs => if c = '>' then some 0 else (firstGt? cs).map (· + 1)

/-- JS `s.split(sep)` for a one-character separator. -/
def splitOnChar (sep : Char) : List Char → List (List Char)
  | [] => [[]]
  | c :: cs =>
    let rest := splitOnChar sep cs
    if c = sep then [] :: rest
    else match rest with
      | [] => [[c]]
      | r :: rs => (c :: r) :: rs

/-- JS `s.replace(pat, "")` for a plain-string pattern: remove the first
occurrence of `pat`, if any. -/
def removeFirst (pat : List Char) : List Char → List Char
  | [] => []
  | c :: cs =>
    if prefixMatches pat (c :: cs) then (c :: cs).drop pat.length
    else c :: removeFirst pat cs

/-- The constant `AUTO_NODE_MARKER_START` of `main.ts`. -/
def mSTART : List Char := str "<!-- auto-node:start -->"

/-- The constant `AUTO_NODE_MARKER_END` of `main.ts`. -/
def mEND : List Char := str "<!-- auto-node:end -->"

/-- The constant `AUTO_NODE_INTRO` of `main.ts` (a five-element
`join("\n")`, ending in a newline). -/
def mINTRO : List Char :=
  str "# Auto Node\nAn auto node is a special Obsidian .md note that will aggregate all your notes that contain a keyword of your choosing across your vault.\nGo to the Auto-node readme.md for more information.\n___\n"

/-- The intro heading searched for by `ensureIntroSection`. -/
def mHEADING : List Char := str "# Auto Node"

/-!
The three regular expressions of `normalizeMarkers`, embedded as matchers
returning the length of the match at the head of the input, if any.

`matchKeywordC` embeds `/<!--\s*auto-node keyword:[^>]*-->/i` at a fixed
position.  The tail `[^>]*-->` is deterministic: the greedy `[^>]*` run
stops at the first `>`, and backtracking can only succeed if that first
`>` is preceded by `--`.
-/

/-- Match of `<!--\s*auto-node keyword:[^>]*-->` (case-insensitive) at the
head of the input, returning the matched length. -/
def matchKeywordC (s : List Char) : Option Nat :=
  if prefixMatches (str "<!--") s then
    let s1 := s.drop 4
    let w := wsRun s1
    let s2 := s1.drop w
    if ciPrefixMatches (str "auto-node keyword:") s2 then
      let s3 := s2.drop 18
      match firstGt? s3 with
      | some p =>
        if 2 ≤ p ∧ s3.getD (p - 2) ' ' = '-' ∧ s3.getD (p - 1) ' ' = '-' then
          some (4 + w + 18 + p + 1)
        else none
      | none => none
    else none
  else none

/-- Match of `<!--\s*auto-node:start\s*-->` (case-insensitive) at the head
of the input, returning the matched length. -/
def matchStartC (s : List Char) : Option Nat :=
  if prefixMatches (str "<!--") s then
    let s1 := s.drop 4
    let w := wsRun s1
    let s2 := s1.drop w
    if ciPrefixMatches (str "auto-node:start") s2 then
      let s3 := s2.drop 15
      let w2 := wsRun s3
      if prefixMatches (str "-->") (s3.drop w2) then some (4 + w + 15 + w2 + 3)
      else none
    else none
  else none

/-- Match of `<!--\s*auto-node:end\s*-->` (case-insensitive) at the head
of the input, returning the matched length. -/
def matchEndC (s : List Char) : Option Nat :=
  if prefixMatches (str "<!--") s then
    let s1 := s.drop 4
    let w := wsRun s1
    let s2 := s1.drop w
    if ciPrefixMatches (str "auto-node:end") s2 then
      let s3 := s2.drop 13
      let w2 := wsRun s3
      if prefixMatches (str "-->") (s3.drop w2) then some (4 + w + 13 + w2 + 3)
      else none
    else none
  else none

/-- The replacement callback of the keyword-comment normalization:
`match.split(":")[1]?.replace("-->", "").trim() ?? ""` spliced into
`<!-- Auto-node keyword: K -->`. -/
def keywordRepl (matched : List Char) : List Char :=
  let kw := trim (removeFirst (str "-->") (((splitOnChar ':' matched).getD 1 [])))
  str "<!-- Auto-node keyword: " ++ kw ++ str " -->"

/-- JS `String.replace` with a global regex: scan left to right, at each
position try the matcher; on a match emit the replacement and continue
after it, otherwise emit the character.  `fuel` bounds the number of
steps; callers pass the input length. -/
def scanRepl (m : List Char → Option Nat) (r : List Char → List Char) :
    Nat → List Char → List Char
  | 0, s => s
  | _ + 1, [] => []
  | fuel + 1, c :: cs =>
    match m (c :: cs) with
    | some n =>
      if n = 0 then c :: scanRepl m r fuel cs
      else r ((c :: cs).take n) ++ scanRepl m r fuel ((c :: cs).drop n)
    | none => c :: scanRepl m r fuel cs

/-- Run a global replace over the whole input. -/
def replaceAll (m : List Char → Option Nat) (r : List Char → List Char)
    (s : List Char) : List Char :=
  scanRepl m r s.length s

/-- `normalizeMarkers` of `main.ts`: the three chained global replaces. -/
def normalizeMarkers (content : List Char) : List Char :=
  replaceAll matchEndC (fun _ => mEND)
    (replaceAll matchStartC (fun _ => mSTART)
      (replaceAll matchKeywordC keywordRepl content))

/-- The frontmatter pattern `/^---[\s\S]*?\n---\n?/` of
`ensureIntroSection`: length of the match at the start of the input, if
any.  The lazy `[\s\S]*?` makes the match end at the first `\n---`
after the opening `---`; the trailing `\n?` is greedy. -/
def frontmatterLen? (content : List Char) : Option Nat :=
  if prefixMatches (str "---") content then
    match firstIndexOf? (str "\n---") (content.drop 3) with
    | some k =>
      let base := 3 + k + 4
      some (if content.getD base ' ' = '\n' then base + 1 else base)
    | none => none
  else none

/-- `ensureIntroSection` of `main.ts`. -/
def ensureIntroSection (content : List Char) : List Char :=
  if occursIn mHEADING content then content
  else
    match frontmatterLen? content with
    | some fmLen =>
      let fm := content.take fmLen
      let rest := trimStart (content.drop fmLen)
      let body := if rest = [] then [] else '\n' :: rest
      trimEnd (fm ++ mINTRO ++ body) ++ ['\n']
    | none =>
      let trimmed := trimStart content
      if trimmed = [] then mINTRO
      else mINTRO ++ '\n' :: trimmed

/-- Steps 1-3 of `mergeGeneratedSection`: normalize markers, ensure the
intro section, and append a fresh marker pair when one is missing. -/
def establishedText (current : List Char) : List Char :=
  let n2 := ensureIntroSection (normalizeMarkers current)
  if occursIn mSTART n2 && occursIn mEND n2 then n2
  else trimEnd n2 ++ str "\n\n" ++ mSTART ++ ['\n'] ++ mEND ++ ['\n']

/-- `mergeGeneratedSection` of `main.ts`.  The `keyword` parameter is
unused, as in the source. -/
def mergeGeneratedSection (current generated keyword : List Char) : List Char :=
  let _ := keyword
  let next := establishedText current
  match firstIndexOf? mSTART next, firstIndexOf? mEND next with
  | some s, some e =>
    if e < s then next
    else
      let before := next.take (s + mSTART.length)
      let after := next.drop e
      trimEnd (before ++ str "\n\n" ++ generated ++ str "\n\n" ++ trimStart after) ++ ['\n']
  | _, _ => next

/-! ### Keyword matcher -/

/-- The `AutoNodeConfig` interface of `main.ts`. -/
structure AutoNodeConfig where
  keyword : List Char
  caseSensitive : Bool
  matchWholeWord : Bool
  deriving Repr, DecidableEq

/-- The `AutoNodeRecord` interface of `main.ts` (a config plus a path). -/
structure AutoNodeRecord where
  path : List Char
  keyword : List Char
  caseSensitive : Bool
  matchWholeWord : Bool
  deriving Repr, DecidableEq

/-- The rule part of a record. -/
def AutoNodeRecord.config (r : AutoNodeRecord) : AutoNodeConfig :=
  ⟨r.keyword, r.caseSensitive, r.matchWholeWord⟩

/-- JS regex word character (`\w` / `\b` classes): ASCII letters, digits,
underscore. -/
def isWordChar (c : Char) : Bool :=
  (97 ≤ c.toNat && c.toNat ≤ 122) || (65 ≤ c.toNat && c.toNat ≤ 90) ||
    (48 ≤ c.toNat && c.toNat ≤ 57) || c.toNat = 95

/-- Character comparison under the regex `i` flag (ASCII model):
case-sensitive when `cs` is true, case-folded otherwise. -/
def charMatches (cs : Bool) (a b : Char) : Bool :=
  if cs then a = b else lowerChar a = lowerChar b

/-- Does the literal pattern `kw` match at the head of `s` (under the
`i`-flag folding controlled by `cs`)? -/
def kwAt (cs : Bool) : List Char → List Char → Bool
  | [], _ => true
  | _ :: _, [] => false
  | a :: as, b :: bs => charMatches cs a b && kwAt cs as bs

/-- Is the character at index `i` a word character (out of range counts
as non-word)? -/
def wordAtIdx (s : List Char) (i : Nat) : Bool :=
  match s[i]? with
  | some c => isWordChar c
  | none => false

/-- A `\b` word boundary at position `i` of `s`. -/
def boundaryAt (s : List Char) (i : Nat) : Bool :=
  (if i = 0 then false else wordAtIdx s (i - 1)) != wordAtIdx s i

/-- Semantics of `new RegExp("\\b" + escape(kw) + "\\b", flags).test(s)`:
the escaped keyword matches exactly the literal keyword, so the test
succeeds iff `kw` occurs at some position with word boundaries on both
sides.  (In `containsKeyword` the three `test` calls run only when the
previous one failed, so the `g`-flag `lastIndex` state never carries
over and each call is a fresh search.) -/
def wbTest (cs : Bool) (kw : List Char) (s : List Char) : Bool :=
  (List.range (s.length + 1)).any fun i =>
    boundaryAt s i && kwAt cs kw (s.drop i) && boundaryAt s (i + kw.length)

/-- `containsKeyword` of `main.ts`.  The document is represented by its
basename (title), path and content. -/
def containsKeyword (basename path content : List Char)
    (config : AutoNodeConfig) : Bool :=
  let keyword := if config.caseSensitive then config.keyword else lowerL config.keyword
  let haystack := if config.caseSensitive then content else lowerL content
  let titleHaystack := if config.caseSensitive then basename else lowerL basename
  let pathHaystack := if config.caseSensitive then path else lowerL path
  if !config.matchWholeWord then
    occursIn keyword haystack || occursIn keyword titleHaystack ||
      occursIn keyword pathHaystack
  else
    wbTest config.caseSensitive keyword content ||
      wbTest config.caseSensitive keyword basename ||
        wbTest config.caseSensitive keyword path

/-! ### Vault and plugin state model

The host `Vault`/`TFile`/`metadataCache` collaborators are modelled as
plain data: a file has a path, a basename, a content, a flag saying
whether reading it fails (a rejected `read`/`cachedRead` promise), and
the auto-node configuration its frontmatter declares, if any (the result
of `detectAutoNodeConfig`, which reads the host metadata cache). -/

structure VaultFile where
  path : List Char
  basename : List Char
  content : List Char
  readFails : Bool
  frontmatter : Option AutoNodeConfig
  deriving Repr, DecidableEq

structure Vault where
  files : List VaultFile
  folderPaths : List (List Char)
  deriving Repr, DecidableEq

/-- Look a file up by path. -/
def Vault.find? (v : Vault) (p : List Char) : Option VaultFile :=
  v.files.find? (fun f => f.path = p)

/-- `vault.modify(file, text)`: replace the content stored at `p`. -/
def Vault.modify (v : Vault) (p : List Char) (text : List Char) : Vault :=
  { v with
    files := v.files.map fun f => if f.path = p then { f with content := text } else f }

/-- `vault.read` / `vault.cachedRead`: the current text, or a failure. -/
def Vault.readFile (v : Vault) (f : VaultFile) : Except Unit (List Char) :=
  match v.find? f.path with
  | some g => if g.readFails then .error () else .ok g.content
  | none => .error ()

/-- The mutable plugin fields used by the synchronization engine:
`isUpdating` (a `Set<string>`), `nodeRecords` (a `Map<string,
AutoNodeRecord>` in insertion order) and the persisted settings snapshot
written by `saveSettings`. -/
structure PluginState where
  isUpdating : List (List Char)
  nodeRecords : List AutoNodeRecord
  savedNodes : List AutoNodeRecord
  deriving Repr, DecidableEq

/-- `Map.get` on the record map. -/
def getRecord (rs : List AutoNodeRecord) (p : List Char) : Option AutoNodeRecord :=
  rs.find? (fun r => r.path = p)

/-- `Map.set` on the record map: overwrite in place, or append. -/
def setRecord (rs : List AutoNodeRecord) (r : AutoNodeRecord) : List AutoNodeRecord :=
  if (rs.find? (fun q => q.path = r.path)).isSome then
    rs.map fun q => if q.path = r.path then r else q
  else rs ++ [r]

/-- `Map.delete` on the record map. -/
def removeRecord (rs : List AutoNodeRecord) (p : List Char) : List AutoNodeRecord :=
  rs.filter (fun r => !(r.path = p : Bool))

/-- `Set.add` on the in-progress set. -/
def addUpdating (st : PluginState) (p : List Char) : PluginState :=
  if st.isUpdating.contains p then st
  else { st with isUpdating := p :: st.isUpdating }

/-- `Set.delete` on the in-progress set. -/
def removeUpdating (st : PluginState) (p : List Char) : PluginState :=
  { st with isUpdating := st.isUpdating.filter (fun q => !(q = p : Bool)) }

/-- `saveSettings`: copy the live record map into the persisted snapshot
(persistence failures are logged and ignored by the source, so the
in-memory view is unconditionally kept). -/
def saveSettings (st : PluginState) : PluginState :=
  { st with savedNodes := st.nodeRecords }

/-- `resolveAutoNodeRecord` of `main.ts`: the known record for the path,
or a record lazily detected from the file frontmatter, cached and
persisted. -/
def resolveAutoNodeRecord (st : PluginState) (f : VaultFile) :
    Option AutoNodeRecord × PluginState :=
  match getRecord st.nodeRecords f.path with
  | some r => (some r, st)
  | none =>
    match f.frontmatter with
    | none => (none, st)
    | some cfg =>
      let r : AutoNodeRecord := ⟨f.path, cfg.keyword, cfg.caseSensitive, cfg.matchWholeWord⟩
      (some r, saveSettings { st with nodeRecords := setRecord st.nodeRecords r })

/-! ### Synchronization engine (`refreshAutoNode`, `refreshAllAutoNodes`) -/

/-- Join a list of strings with a separator (JS `Array.join`). -/
def joinSep (sep : List Char) : List (List Char) → List Char
  | [] => []
  | [x] => x
  | x :: y :: rest => x ++ sep ++ joinSep sep (y :: rest)

/-- Modelled from the spec: the host API `fileManager.generateMarkdownLink`
("collect a link reference for each match") is external to the
repository; it is represented as a wiki-link to the basename. -/
def generateMarkdownLink (other : VaultFile) (sourcePath : List Char) : List Char :=
  let _ := sourcePath
  str "[[" ++ other.basename ++ str "]]"

/-- Strict lexicographic order on character codes. -/
def lexLt : List Char → List Char → Bool
  | [], [] => false
  | [], _ :: _ => true
  | _ :: _, [] => false
  | a :: as, b :: bs => a < b || (a = b && lexLt as bs)

/-- Modelled from the spec: `localeCompare(..., sensitivity: base)` is a
host locale comparison; it is represented as case-insensitive (ASCII)
lexicographic order on the character codes. -/
def linkLe (a b : List Char) : Bool :=
  lexLt (lowerL a) (lowerL b) || lowerL a = lowerL b

/-- Insert into a sorted list (stable). -/
def insertSorted (a : List Char) : List (List Char) → List (List Char)
  | [] => [a]
  | b :: rest => if linkLe b a then b :: insertSorted a rest else a :: b :: rest

/-- `matches.sort((a, b) => a.localeCompare(b, ...))`: a stable sort by
the modelled comparator. -/
def sortLinks : List (List Char) → List (List Char)
  | [] => []
  | a :: rest => insertSorted a (sortLinks rest)

/-- The scan loop of `refreshAutoNode`: for every markdown file other
than the target, `cachedRead` its content (a rejected read throws out of
the loop) and collect a markdown link when `containsKeyword` accepts. -/
def scanMatches (targetPath : List Char) (cfg : AutoNodeConfig) :
    List VaultFile → Except Unit (List (List Char))
  | [] => .ok []
  | other :: rest =>
    if other.path = targetPath then scanMatches targetPath cfg rest
    else if other.readFails then .error ()
    else
      match scanMatches targetPath cfg rest with
      | .error e => .error e
      | .ok links =>
        if containsKeyword other.basename other.path other.content cfg then
          .ok (generateMarkdownLink other targetPath :: links)
        else .ok links

/-- The placeholder rendered when no notes match. -/
def mPLACEHOLDER : List Char := str "_No matching notes yet._"

/-- The generated body of `refreshAutoNode`: a bullet list of the sorted
links, or the placeholder when no notes matched. -/
def generatedSection (links : List (List Char)) : List Char :=
  if links.isEmpty then mPLACEHOLDER
  else joinSep ['\n'] ((sortLinks links).map (str "- " ++ ·))

/-- Outcome of one (or several) `refreshAutoNode` calls: final plugin
state, final vault, the writes performed (path and new text, in order),
and whether an exception escaped. -/
structure RunOut where
  st : PluginState
  vault : Vault
  writes : List (List Char × List Char)
  failed : Bool
  deriving Repr, DecidableEq

/-- `refreshAutoNode` of `main.ts`.  The `try`/`finally` is explicit: the
in-progress entry is removed on both the normal and the throwing path,
and a throw is reported through `failed := true`. -/
def refreshAutoNode (st : PluginState) (v : Vault) (file : VaultFile) : RunOut :=
  if st.isUpdating.contains file.path then ⟨st, v, [], false⟩
  else
    match resolveAutoNodeRecord st file with
    | (none, st') => ⟨st', v, [], false⟩
    | (some record, st') =>
      let st2 := addUpdating st' file.path
      match scanMatches file.path record.config v.files with
      | .error _ => ⟨removeUpdating st2 file.path, v, [], true⟩
      | .ok links =>
        let generated := generatedSection links
        match v.readFile file with
        | .error _ => ⟨removeUpdating st2 file.path, v, [], true⟩
        | .ok current =>
          let next := mergeGeneratedSection current generated record.keyword
          if next = current then ⟨removeUpdating st2 file.path, v, [], false⟩
          else ⟨removeUpdating st2 file.path, v.modify file.path next,
                [(file.path, next)], false⟩

/-- The filter of `refreshAllAutoNodes`: `files.filter(f =>
this.resolveAutoNodeRecord(f))`, which lazily caches detected records as
it goes. -/
def selectAutoNodes (st : PluginState) :
    List VaultFile → List VaultFile × PluginState
  | [] => ([], st)
  | f :: rest =>
    match resolveAutoNodeRecord st f with
    | (some _, st') =>
      let (fs, st'') := selectAutoNodes st' rest
      (f :: fs, st'')
    | (none, st') => selectAutoNodes st' rest

/-- The sequential `for ... await` loop of `refreshAllAutoNodes`: an
exception from one iteration propagates and the remaining auto-nodes are
not processed. -/
def refreshLoop (st : PluginState) (v : Vault) : List VaultFile → RunOut
  | [] => ⟨st, v, [], false⟩
  | f :: rest =>
    let out := refreshAutoNode st v f
    if out.failed then out
    else
      let out2 := refreshLoop out.st out.vault rest
      ⟨out2.st, out2.vault, out.writes ++ out2.writes, out2.failed⟩

/-- `refreshAllAutoNodes` of `main.ts`. -/
def refreshAllAutoNodes (st : PluginState) (v : Vault) : RunOut :=
  let (autoNodes, st') := selectAutoNodes st v.files
  refreshLoop st' v autoNodes

/-! ### Rename (`renameAutoNodeFile`) -/

/-- JS `s.endsWith(pat)`. -/
def endsWith (pat s : List Char) : Bool := prefixMatches pat.reverse s.reverse

/-- `ensureMarkdownExtension` of `main.ts`. -/
def ensureMarkdownExtension (name : List Char) : List Char :=
  if endsWith (str ".md") (lowerL name) then name else name ++ str ".md"

/-- `getAbstractFileByPath` returns files and folders alike. -/
def Vault.abstractExists (v : Vault) (p : List Char) : Bool :=
  (v.find? p).isSome || v.folderPaths.contains p

/-- Iteration of `ensureFolder` over the path segments: create every
missing prefix folder. -/
def ensureFolderGo (v : Vault) (current : List Char) : List (List Char) → Vault
  | [] => v
  | part :: rest =>
    let cur := if current = [] then part else current ++ '/' :: part
    let v2 := if v.abstractExists cur then v
              else { v with folderPaths := v.folderPaths ++ [cur] }
    ensureFolderGo v2 cur rest

/-- `ensureFolder` of `main.ts`: create every missing prefix folder
(`folder already exists` races are swallowed by the source). -/
def ensureFolder (v : Vault) (folderPath : List Char) : Vault :=
  ensureFolderGo v [] ((splitOnChar '/' folderPath).filter (fun p => !(p = [] : Bool)))

/-- `fileManager.renameFile`: move the file at `oldPath` to `newPath`
(the host also updates the `TFile` basename; the triggered vault rename
event is outside this function). -/
def renameFileV (v : Vault) (oldPath newPath : List Char) : Vault :=
  let seg := ((splitOnChar '/' newPath).getLast? ).getD newPath
  let base := if endsWith (str ".md") (lowerL seg) then seg.dropLast.dropLast.dropLast else seg
  { v with
    files := v.files.map fun f =>
      if f.path = oldPath then { f with path := newPath, basename := base } else f }

/-- `renameAutoNodeFile` of `main.ts`, in state-passing form: the result
carries the returned path (or the thrown error) together with the plugin
state and vault after the call.  `np` models the host `normalizePath`
(`none` models a throw, mapped to the `Invalid file path` error). -/
def renameAutoNodeFile (np : List Char → Option (List Char))
    (st : PluginState) (v : Vault) (currentPath desiredPath : List Char) :
    Except Unit (List Char) × PluginState × Vault :=
  match getRecord st.nodeRecords currentPath with
  | none => (.error (), st, v)
  | some record =>
    match v.find? currentPath with
    | none => (.error (), st, v)
    | some _ =>
      let trimmed := trim desiredPath
      if trimmed = [] then (.error (), st, v)
      else
        let withExt := ensureMarkdownExtension trimmed
        match np withExt with
        | none => (.error (), st, v)
        | some normalized =>
          if normalized = currentPath then (.ok normalized, st, v)
          else if v.abstractExists normalized then (.error (), st, v)
          else
            let folders := (splitOnChar '/' normalized).dropLast
            let v1 := if folders ≠ [] then ensureFolder v (joinSep ['/'] folders) else v
            let v2 := renameFileV v1 currentPath normalized
            let updated : AutoNodeRecord :=
              ⟨normalized, record.keyword, record.caseSensitive, record.matchWholeWord⟩
            let st1 := { st with
              nodeRecords := setRecord (removeRecord st.nodeRecords currentPath) updated }
            (.ok normalized, saveSettings st1, v2)

/-! ### Debounce (`scheduleRefresh`) -/

/-- Model of `scheduleRefresh` and the single timer slot
`refreshTimeout`: process change signals (nondecreasing timestamps) left
to right.  A signal with no pending timer arms one at `t + delay`; a
signal while a timer is pending at `d` first accounts for a firing when
`d ≤ t` (the timer ran before the signal), otherwise cancels and re-arms
at `t + delay` (`clearTimeout` + `setTimeout` with the full delay).  A
timer still pending after the last signal fires once.  The returned
number counts timer firings, i.e. synchronization passes started. -/
def countPasses (delay : Nat) : List Nat → Option Nat → Nat
  | [], none => 0
  | [], some _ => 1
  | t :: rest, none => countPasses delay rest (some (t + delay))
  | t :: rest, some d =>
    if d ≤ t then 1 + countPasses delay rest (some (t + delay))
    else countPasses delay rest (some (t + delay))

/-! ### Basic lemmas about the string primitives -/

theorem prefixMatches_cons_ne {a c : Char} {as t : List Char} (h : a ≠ c) :
    prefixMatches (a :: as) (c :: t) = false := by
  simp [prefixMatches, h]

theorem prefixMatches_self_append (n B : List Char) :
    prefixMatches n (n ++ B) = true := by
  induction n with
  | nil => simp [prefixMatches]
  | cons a as ih => simp [prefixMatches, ih]

theorem occursIn_append_right {n : List Char} (A : List Char) {B : List Char}
    (h : occursIn n B = true) : occursIn n (A ++ B) = true := by
  induction A with
  | nil => simpa using h
  | cons c cs ih =>
    simp only [List.cons_append, occursIn, Bool.or_eq_true]
    exact Or.inr ih

theorem prefixMatches_append_of {n s : List Char} (B : List Char)
    (h : prefixMatches n s = true) : prefixMatches n (s ++ B) = true := by
  induction n generalizing s with
  | nil => simp [prefixMatches]
  | cons a as ih =>
    cases s with
    | nil => simp [prefixMatches] at h
    | cons c cs =>
      simp only [prefixMatches, Bool.and_eq_true] at h ⊢
      exact ⟨h.1, ih h.2⟩

theorem occursIn_append_left {n A : List Char} (B : List Char)
    (h : occursIn n A = true) : occursIn n (A ++ B) = true := by
  induction A with
  | nil =>
    simp only [occursIn] at h
    cases n with
    | nil => cases B <;> simp [occursIn, prefixMatches]
    | cons a as => simp [prefixMatches] at h
  | cons c cs ih =>
    simp only [occursIn, Bool.or_eq_true] at h
    simp only [List.cons_append, occursIn, Bool.or_eq_true]
    rcases h with h | h
    · exact Or.inl (prefixMatches_append_of B h)
    · exact Or.inr (ih h)

theorem occursIn_self_append (n B : List Char) : occursIn n (n ++ B) = true := by
  cases n with
  | nil => cases B <;> simp [occursIn, prefixMatches]
  | cons a as =>
    simp only [List.cons_append, occursIn, Bool.or_eq_true]
    left
    exact prefixMatches_self_append (a :: as) B

theorem firstIndexOf?_append_nohead {h : Char} {n' : List Char} {A : List Char}
    (B : List Char) (hA : h ∉ A) :
    firstIndexOf? (h :: n') (A ++ B) = (firstIndexOf? (h :: n') B).map (· + A.length) := by
  induction A with
  | nil => cases hb : firstIndexOf? (h :: n') B <;> simp [hb]
  | cons c cs ih =>
    have hc : h ≠ c := fun he => hA (he ▸ List.mem_cons_self c cs)
    have hcs : h ∉ cs := fun hm => hA (List.mem_cons_of_mem c hm)
    simp only [List.cons_append, firstIndexOf?, prefixMatches_cons_ne hc]
    rw [if_neg (by simp)]
    simp only [List.append_eq]
    rw [ih hcs]
    cases hb : firstIndexOf? (h :: n') B <;> simp [Nat.add_assoc]

/-- Whitespace characters are not `<`, `>`, `#` or letters; conversely the
marker heads are not whitespace. -/
theorem isWs_lt_false : isWs '<' = false := rfl

theorem trimStart_cons_of_not_ws {c : Char} (h : isWs c = false) (t : List Char) :
    trimStart (c :: t) = c :: t := by
  simp [trimStart, List.dropWhile_cons, h]

theorem dropWhile_ne_nil_of_mem {p : Char → Bool} {B : List Char} {c : Char}
    (hc : c ∈ B) (hp : p c = false) : List.dropWhile p B ≠ [] := by
  intro hnil
  have := (List.dropWhile_eq_nil_iff).mp hnil c hc
  rw [hp] at this
  exact Bool.false_ne_true this

theorem trimEnd_append_right {A B : List Char} {c : Char} (hc : c ∈ B)
    (hp : isWs c = false) : trimEnd (A ++ B) = A ++ trimEnd B := by
  have hmem : c ∈ B.reverse := List.mem_reverse.mpr hc
  have hne : List.dropWhile isWs B.reverse ≠ [] := dropWhile_ne_nil_of_mem hmem hp
  simp only [trimEnd, List.reverse_append, List.dropWhile_append,
    List.isEmpty_iff]
  rw [if_neg hne]
  simp

theorem trimEnd_append_ws {X : List Char} {c : Char} (hc : isWs c = true) :
    trimEnd (X ++ [c]) = trimEnd X := by
  simp [trimEnd, List.reverse_append, List.dropWhile_cons, hc]

theorem dropWhile_self_idem (p : Char → Bool) (l : List Char) :
    List.dropWhile p (List.dropWhile p l) = List.dropWhile p l := by
  induction l with
  | nil => simp
  | cons a t ih =>
    by_cases h : p a = true
    · simp [List.dropWhile_cons, h, ih]
    · simp only [Bool.not_eq_true] at h
      simp [List.dropWhile_cons, h]

theorem trimEnd_idem (l : List Char) : trimEnd (trimEnd l) = trimEnd l := by
  simp [trimEnd, dropWhile_self_idem]

theorem mem_trimEnd_subset {c : Char} {l : List Char} (h : c ∈ trimEnd l) : c ∈ l := by
  simp only [trimEnd, List.mem_reverse] at h
  exact List.mem_reverse.mp ((List.dropWhile_sublist isWs).mem h)

/-! ### Lemmas about the regex-replace scan -/

theorem scanRepl_nil (m : List Char → Option Nat) (r : List Char → List Char)
    (fuel : Nat) : scanRepl m r fuel [] = [] := by
  cases fuel <;> rfl

theorem scanRepl_cons_none {m : List Char → Option Nat} {r : List Char → List Char}
    {c : Char} {cs : List Char} (f : Nat) (hm : m (c :: cs) = none) :
    scanRepl m r (f + 1) (c :: cs) = c :: scanRepl m r f cs := by
  simp only [scanRepl, hm]

theorem scanRepl_cons_some {m : List Char → Option Nat} {r : List Char → List Char}
    {c : Char} {cs B : List Char} {n : Nat} (f : Nat)
    (hm : m (c :: (cs ++ B)) = some n) (hn : n = cs.length + 1)
    (hr : r ((c :: (cs ++ B)).take n) = c :: cs) :
    scanRepl m r (f + 1) ((c :: cs) ++ B) = (c :: cs) ++ scanRepl m r f B := by
  simp only [List.cons_append, scanRepl, List.append_eq, hm]
  rw [if_neg (by omega), hr, hn]
  have hdrop : (c :: (cs ++ B)).drop (cs.length + 1) = B := by
    simp [List.drop_left]
  rw [hdrop]
  simp

theorem scanRepl_append_nolt {m : List Char → Option Nat} {r : List Char → List Char}
    (hm : ∀ c t, c ≠ '<' → m (c :: t) = none)
    {A : List Char} (hA : '<' ∉ A) (B : List Char) :
    ∀ fuel, A.length ≤ fuel →
      scanRepl m r fuel (A ++ B) = A ++ scanRepl m r (fuel - A.length) B := by
  induction A with
  | nil => intro fuel _; simp
  | cons c cs ih =>
    intro fuel hf
    cases fuel with
    | zero => simp at hf
    | succ f =>
      have hc : c ≠ '<' := fun he => hA (he ▸ List.mem_cons_self c cs)
      have hcs : '<' ∉ cs := fun hmem => hA (List.mem_cons_of_mem c hmem)
      have hf' : cs.length ≤ f := by simp at hf; omega
      rw [List.cons_append, scanRepl_cons_none f (hm c _ hc)]
      rw [ih hcs f hf']
      have harith : f + 1 - (c :: cs).length = f - cs.length := by simp
      rw [harith]
      simp

/-! ### The three normalization passes fix marker-clean documents -/

theorem matchKeywordC_none_head (c : Char) (t : List Char) (h : c ≠ '<') :
    matchKeywordC (c :: t) = none := by
  unfold matchKeywordC
  rw [show (str "<!--") = '<' :: str "!--" from rfl,
    prefixMatches_cons_ne (Ne.symm h)]
  simp

theorem matchStartC_none_head (c : Char) (t : List Char) (h : c ≠ '<') :
    matchStartC (c :: t) = none := by
  unfold matchStartC
  rw [show (str "<!--") = '<' :: str "!--" from rfl,
    prefixMatches_cons_ne (Ne.symm h)]
  simp

theorem matchEndC_none_head (c : Char) (t : List Char) (h : c ≠ '<') :
    matchEndC (c :: t) = none := by
  unfold matchEndC
  rw [show (str "<!--") = '<' :: str "!--" from rfl,
    prefixMatches_cons_ne (Ne.symm h)]
  simp

theorem matchKeywordC_mSTART (B : List Char) : matchKeywordC (mSTART ++ B) = none := rfl

theorem matchKeywordC_mEND (B : List Char) : matchKeywordC (mEND ++ B) = none := rfl

theorem matchStartC_mSTART (B : List Char) : matchStartC (mSTART ++ B) = some 24 := rfl

theorem matchStartC_mEND (B : List Char) : matchStartC (mEND ++ B) = none := rfl

theorem matchEndC_mEND (B : List Char) : matchEndC (mEND ++ B) = some 22 := rfl

theorem matchEndC_mSTART (B : List Char) : matchEndC (mSTART ++ B) = none := rfl

theorem scanRepl_skip_mSTART {m : List Char → Option Nat} {r : List Char → List Char}
    (hm : ∀ c t, c ≠ '<' → m (c :: t) = none) {B : List Char}
    (hnone : m (mSTART ++ B) = none) (fuel : Nat) (hf : 24 ≤ fuel) :
    scanRepl m r fuel (mSTART ++ B) = mSTART ++ scanRepl m r (fuel - 24) B := by
  obtain ⟨f, rfl⟩ : ∃ f, fuel = f + 1 := ⟨fuel - 1, by omega⟩
  have h1 : scanRepl m r (f + 1) (mSTART ++ B) =
      '<' :: scanRepl m r f (str "!-- auto-node:start -->" ++ B) :=
    scanRepl_cons_none f hnone
  rw [h1, scanRepl_append_nolt hm (by decide) B f (by
    have : (str "!-- auto-node:start -->").length = 23 := rfl
    omega)]
  rw [show (str "!-- auto-node:start -->").length = 23 from rfl,
    show f + 1 - 24 = f - 23 from by omega]
  rfl

theorem scanRepl_skip_mEND {m : List Char → Option Nat} {r : List Char → List Char}
    (hm : ∀ c t, c ≠ '<' → m (c :: t) = none) {B : List Char}
    (hnone : m (mEND ++ B) = none) (fuel : Nat) (hf : 22 ≤ fuel) :
    scanRepl m r fuel (mEND ++ B) = mEND ++ scanRepl m r (fuel - 22) B := by
  obtain ⟨f, rfl⟩ : ∃ f, fuel = f + 1 := ⟨fuel - 1, by omega⟩
  have h1 : scanRepl m r (f + 1) (mEND ++ B) =
      '<' :: scanRepl m r f (str "!-- auto-node:end -->" ++ B) :=
    scanRepl_cons_none f hnone
  rw [h1, scanRepl_append_nolt hm (by decide) B f (by
    have : (str "!-- auto-node:end -->").length = 21 := rfl
    omega)]
  rw [show (str "!-- auto-node:end -->").length = 21 from rfl,
    show f + 1 - 22 = f - 21 from by omega]
  rfl

theorem scanRepl_keep_mSTART (B : List Char) (fuel : Nat) (hf : 1 ≤ fuel) :
    scanRepl matchStartC (fun _ => mSTART) fuel (mSTART ++ B) =
      mSTART ++ scanRepl matchStartC (fun _ => mSTART) (fuel - 1) B := by
  obtain ⟨f, rfl⟩ : ∃ f, fuel = f + 1 := ⟨fuel - 1, by omega⟩
  have h1 : scanRepl matchStartC (fun _ => mSTART) (f + 1) (mSTART ++ B) =
      mSTART ++ scanRepl matchStartC (fun _ => mSTART) f B :=
    scanRepl_cons_some f (matchStartC_mSTART B) (by rfl) (by rfl)
  rw [h1]
  rfl

theorem scanRepl_keep_mEND (B : List Char) (fuel : Nat) (hf : 1 ≤ fuel) :
    scanRepl matchEndC (fun _ => mEND) fuel (mEND ++ B) =
      mEND ++ scanRepl matchEndC (fun _ => mEND) (fuel - 1) B := by
  obtain ⟨f, rfl⟩ : ∃ f, fuel = f + 1 := ⟨fuel - 1, by omega⟩
  have h1 : scanRepl matchEndC (fun _ => mEND) (f + 1) (mEND ++ B) =
      mEND ++ scanRepl matchEndC (fun _ => mEND) f B :=
    scanRepl_cons_some f (matchEndC_mEND B) (by rfl) (by rfl)
  rw [h1]
  rfl

theorem scanRepl_all_nolt {m : List Char → Option Nat} {r : List Char → List Char}
    (hm : ∀ c t, c ≠ '<' → m (c :: t) = none) {S : List Char} (hS : '<' ∉ S)
    (fuel : Nat) (hf : S.length ≤ fuel) : scanRepl m r fuel S = S := by
  have h := scanRepl_append_nolt (r := r) hm hS [] fuel hf
  rw [List.append_nil] at h
  rw [h, scanRepl_nil, List.append_nil]

/-- Documents of the five-segment shape used by the structured merge
lemmas: prefix, start marker, middle, end marker, suffix. -/
def structuredDoc (P M S : List Char) : List Char :=
  P ++ (mSTART ++ (M ++ (mEND ++ S)))

theorem structuredDoc_length (P M S : List Char) :
    (structuredDoc P M S).length = P.length + (24 + (M.length + (22 + S.length))) := by
  simp [structuredDoc, show mSTART.length = 24 from rfl, show mEND.length = 22 from rfl]

theorem replaceAll_keyword_structured {P M S : List Char}
    (hP : '<' ∉ P) (hM : '<' ∉ M) (hS : '<' ∉ S) :
    replaceAll matchKeywordC keywordRepl (structuredDoc P M S) = structuredDoc P M S := by
  have hfuel := structuredDoc_length P M S
  unfold replaceAll
  rw [hfuel]
  unfold structuredDoc
  rw [scanRepl_append_nolt matchKeywordC_none_head hP _ _ (by omega),
    show P.length + (24 + (M.length + (22 + S.length))) - P.length
      = 24 + (M.length + (22 + S.length)) from by omega]
  rw [scanRepl_skip_mSTART matchKeywordC_none_head (matchKeywordC_mSTART _) _ (by omega),
    show 24 + (M.length + (22 + S.length)) - 24 = M.length + (22 + S.length) from by omega]
  rw [scanRepl_append_nolt matchKeywordC_none_head hM _ _ (by omega),
    show M.length + (22 + S.length) - M.length = 22 + S.length from by omega]
  rw [scanRepl_skip_mEND matchKeywordC_none_head (matchKeywordC_mEND _) _ (by omega),
    show 22 + S.length - 22 = S.length from by omega]
  rw [scanRepl_all_nolt matchKeywordC_none_head hS _ (by omega)]

theorem replaceAll_start_structured {P M S : List Char}
    (hP : '<' ∉ P) (hM : '<' ∉ M) (hS : '<' ∉ S) :
    replaceAll matchStartC (fun _ => mSTART) (structuredDoc P M S) = structuredDoc P M S := by
  have hfuel := structuredDoc_length P M S
  unfold replaceAll
  rw [hfuel]
  unfold structuredDoc
  rw [scanRepl_append_nolt matchStartC_none_head hP _ _ (by omega),
    show P.length + (24 + (M.length + (22 + S.length))) - P.length
      = 24 + (M.length + (22 + S.length)) from by omega]
  rw [scanRepl_keep_mSTART _ _ (by omega),
    show 24 + (M.length + (22 + S.length)) - 1 = 23 + (M.length + (22 + S.length)) from by omega]
  rw [scanRepl_append_nolt matchStartC_none_head hM _ _ (by omega),
    show 23 + (M.length + (22 + S.length)) - M.length = 23 + (22 + S.length) from by omega]
  rw [scanRepl_skip_mEND matchStartC_none_head (matchStartC_mEND _) _ (by omega),
    show 23 + (22 + S.length) - 22 = 23 + S.length from by omega]
  rw [scanRepl_all_nolt matchStartC_none_head hS _ (by omega)]

theorem replaceAll_end_structured {P M S : List Char}
    (hP : '<' ∉ P) (hM : '<' ∉ M) (hS : '<' ∉ S) :
    replaceAll matchEndC (fun _ => mEND) (structuredDoc P M S) = structuredDoc P M S := by
  have hfuel := structuredDoc_length P M S
  unfold replaceAll
  rw [hfuel]
  unfold structuredDoc
  rw [scanRepl_append_nolt matchEndC_none_head hP _ _ (by omega),
    show P.length + (24 + (M.length + (22 + S.length))) - P.length
      = 24 + (M.length + (22 + S.length)) from by omega]
  rw [scanRepl_skip_mSTART matchEndC_none_head (matchEndC_mSTART _) _ (by omega),
    show 24 + (M.length + (22 + S.length)) - 24 = M.length + (22 + S.length) from by omega]
  rw [scanRepl_append_nolt matchEndC_none_head hM _ _ (by omega),
    show M.length + (22 + S.length) - M.length = 22 + S.length from by omega]
  rw [scanRepl_keep_mEND _ _ (by omega),
    show 22 + S.length - 1 = 21 + S.length from by omega]
  rw [scanRepl_all_nolt matchEndC_none_head hS _ (by omega)]

theorem normalizeMarkers_structured {P M S : List Char}
    (hP : '<' ∉ P) (hM : '<' ∉ M) (hS : '<' ∉ S) :
    normalizeMarkers (structuredDoc P M S) = structuredDoc P M S := by
  unfold normalizeMarkers
  rw [replaceAll_keyword_structured hP hM hS, replaceAll_start_structured hP hM hS,
    replaceAll_end_structured hP hM hS]

theorem ensureIntroSection_of_heading {T : List Char}
    (h : occursIn mHEADING T = true) : ensureIntroSection T = T := by
  unfold ensureIntroSection
  simp [h]

theorem occursIn_mSTART_structured (P M S : List Char) :
    occursIn mSTART (structuredDoc P M S) = true :=
  occursIn_append_right P (occursIn_self_append mSTART (M ++ (mEND ++ S)))

theorem occursIn_mEND_structured (P M S : List Char) :
    occursIn mEND (structuredDoc P M S) = true :=
  occursIn_append_right P (occursIn_append_right mSTART
    (occursIn_append_right M (occursIn_self_append mEND S)))

theorem establishedText_structured {P M S : List Char}
    (hP : '<' ∉ P) (hM : '<' ∉ M) (hS : '<' ∉ S)
    (hH : occursIn mHEADING P = true) :
    establishedText (structuredDoc P M S) = structuredDoc P M S := by
  have hI : ensureIntroSection (structuredDoc P M S) = structuredDoc P M S :=
    ensureIntroSection_of_heading (by unfold structuredDoc; exact occursIn_append_left _ hH)
  unfold establishedText
  rw [normalizeMarkers_structured hP hM hS, hI]
  dsimp only
  rw [occursIn_mSTART_structured, occursIn_mEND_structured]
  simp

theorem fio_mSTART_structured {P : List Char} (M S : List Char) (hP : '<' ∉ P) :
    firstIndexOf? mSTART (structuredDoc P M S) = some P.length := by
  unfold structuredDoc
  have h1 : firstIndexOf? mSTART (P ++ (mSTART ++ (M ++ (mEND ++ S)))) =
      (firstIndexOf? mSTART (mSTART ++ (M ++ (mEND ++ S)))).map (· + P.length) :=
    firstIndexOf?_append_nohead _ hP
  rw [h1, show firstIndexOf? mSTART (mSTART ++ (M ++ (mEND ++ S))) = some 0 from rfl]
  simp

theorem fio_mEND_through_mSTART (B : List Char) :
    firstIndexOf? mEND (mSTART ++ B) = (firstIndexOf? mEND B).map (· + 24) := by
  have h0 : mSTART ++ B = '<' :: (str "!-- auto-node:start -->" ++ B) := rfl
  rw [h0, firstIndexOf?]
  rw [show prefixMatches mEND ('<' :: (str "!-- auto-node:start -->" ++ B)) = false from rfl]
  have h1 : firstIndexOf? mEND (str "!-- auto-node:start -->" ++ B) =
      (firstIndexOf? mEND B).map (· + 23) :=
    firstIndexOf?_append_nohead _ (by decide)
  rw [if_neg (by simp), h1]
  cases firstIndexOf? mEND B <;> simp

theorem fio_mEND_structured {P M : List Char} (S : List Char)
    (hP : '<' ∉ P) (hM : '<' ∉ M) :
    firstIndexOf? mEND (structuredDoc P M S) = some (P.length + (24 + M.length)) := by
  unfold structuredDoc
  have h1 : firstIndexOf? mEND (P ++ (mSTART ++ (M ++ (mEND ++ S)))) =
      (firstIndexOf? mEND (mSTART ++ (M ++ (mEND ++ S)))).map (· + P.length) :=
    firstIndexOf?_append_nohead _ hP
  have h2 : firstIndexOf? mEND (M ++ (mEND ++ S)) =
      (firstIndexOf? mEND (mEND ++ S)).map (· + M.length) :=
    firstIndexOf?_append_nohead _ hM
  rw [h1, fio_mEND_through_mSTART, h2,
    show firstIndexOf? mEND (mEND ++ S) = some 0 from rfl]
  simp [Nat.add_comm, Nat.add_assoc, Nat.add_left_comm]

theorem trimEnd_append_mEND (A S : List Char) :
    trimEnd (A ++ (mEND ++ S)) = A ++ (mEND ++ trimEnd S) := by
  have hrev : (A ++ (mEND ++ S)).reverse = S.reverse ++ (mEND.reverse ++ A.reverse) := by
    simp [List.reverse_append]
  have hEndRev : List.dropWhile isWs (mEND.reverse ++ A.reverse) =
      mEND.reverse ++ A.reverse := by
    rw [show mEND.reverse = str ">-- dne:edon-otua --!<" from rfl]
    rw [show str ">-- dne:edon-otua --!<" ++ A.reverse
        = '>' :: (str "-- dne:edon-otua --!<" ++ A.reverse) from rfl]
    rw [List.dropWhile_cons]
    simp [isWs]
  unfold trimEnd
  rw [hrev, List.dropWhile_append]
  by_cases hE : (List.dropWhile isWs S.reverse).isEmpty = true
  · rw [if_pos hE, hEndRev]
    have : S.reverse.dropWhile isWs = [] := List.isEmpty_iff.mp hE
    rw [this]
    simp [List.reverse_append]
  · rw [if_neg hE]
    simp [List.reverse_append]

/-- Characterization of `mergeGeneratedSection` on marker-clean structured
documents: the merge replaces the middle with the generated body framed
by blank lines, preserves the prefix byte for byte, and keeps the suffix
up to trailing-whitespace trimming plus a final newline. -/
theorem merge_structured {P M S G k : List Char}
    (hP : '<' ∉ P) (hM : '<' ∉ M) (hS : '<' ∉ S)
    (hH : occursIn mHEADING P = true) :
    mergeGeneratedSection (structuredDoc P M S) G k
      = structuredDoc P (str "\n\n" ++ (G ++ str "\n\n")) (trimEnd S ++ ['\n']) := by
  simp only [mergeGeneratedSection]
  rw [establishedText_structured hP hM hS hH]
  rw [fio_mSTART_structured M S hP, fio_mEND_structured S hP hM]
  dsimp only
  rw [if_neg (by omega)]
  have htake : (structuredDoc P M S).take (P.length + mSTART.length) = P ++ mSTART := by
    unfold structuredDoc
    rw [show P ++ (mSTART ++ (M ++ (mEND ++ S))) = (P ++ mSTART) ++ (M ++ (mEND ++ S))
      from by simp [List.append_assoc]]
    exact List.take_left' (by simp)
  have hdrop : (structuredDoc P M S).drop (P.length + (24 + M.length)) = mEND ++ S := by
    unfold structuredDoc
    rw [show P ++ (mSTART ++ (M ++ (mEND ++ S))) = ((P ++ mSTART) ++ M) ++ (mEND ++ S)
      from by simp [List.append_assoc]]
    refine List.drop_left' ?_
    simp only [List.length_append, show mSTART.length = 24 from rfl]
    omega
  rw [htake, hdrop]
  have hts : trimStart (mEND ++ S) = mEND ++ S := by
    have h1 : trimStart ('<' :: (str "!-- auto-node:end -->" ++ S)) =
        '<' :: (str "!-- auto-node:end -->" ++ S) :=
      trimStart_cons_of_not_ws isWs_lt_false _
    exact h1
  rw [hts]
  have hte : trimEnd ((((P ++ mSTART) ++ str "\n\n") ++ G ++ str "\n\n") ++ (mEND ++ S))
      = (((P ++ mSTART) ++ str "\n\n") ++ G ++ str "\n\n") ++ (mEND ++ trimEnd S) :=
    trimEnd_append_mEND _ S
  rw [show (P ++ mSTART) ++ str "\n\n" ++ G ++ str "\n\n" ++ (mEND ++ S)
      = (((P ++ mSTART) ++ str "\n\n") ++ G ++ str "\n\n") ++ (mEND ++ S) from by
    simp [List.append_assoc]]
  rw [hte]
  unfold structuredDoc
  simp [List.append_assoc]

/-! ### Case folding lemmas (ASCII model of the `i` regex flag) -/

theorem toNat_ofNat_valid {n : Nat} (h1 : n < 55296) : (Char.ofNat n).toNat = n := by
  rw [Char.ofNat, dif_pos (Or.inl h1)]
  rfl

theorem char_le_toNat {a b : Char} : a ≤ b ↔ a.toNat ≤ b.toNat := Iff.rfl

theorem lowerChar_upperChar (c : Char) : lowerChar (upperChar c) = lowerChar c := by
  unfold lowerChar upperChar
  by_cases h : 'a' ≤ c ∧ c ≤ 'z'
  · rw [if_pos h]
    have h1 : 97 ≤ c.toNat := char_le_toNat.mp h.1
    have h2 : c.toNat ≤ 122 := char_le_toNat.mp h.2
    have hval : (Char.ofNat (c.toNat - 32)).toNat = c.toNat - 32 :=
      toNat_ofNat_valid (by omega)
    have hcond : 'A' ≤ Char.ofNat (c.toNat - 32) ∧ Char.ofNat (c.toNat - 32) ≤ 'Z' := by
      constructor
      · exact char_le_toNat.mpr (by rw [hval]; show (65 : Nat) ≤ c.toNat - 32; omega)
      · exact char_le_toNat.mpr (by rw [hval]; show c.toNat - 32 ≤ (90 : Nat); omega)
    rw [if_pos hcond, hval]
    rw [show c.toNat - 32 + 32 = c.toNat from by omega, Char.ofNat_toNat]
    rw [if_neg (fun hc => by
      have h3 : c.toNat ≤ 90 := char_le_toNat.mp hc.2
      omega)]
  · rw [if_neg h]

theorem lowerChar_lowerChar (c : Char) : lowerChar (lowerChar c) = lowerChar c := by
  unfold lowerChar
  by_cases h : 'A' ≤ c ∧ c ≤ 'Z'
  · rw [if_pos h]
    have h1 : 65 ≤ c.toNat := char_le_toNat.mp h.1
    have h2 : c.toNat ≤ 90 := char_le_toNat.mp h.2
    have hval : (Char.ofNat (c.toNat + 32)).toNat = c.toNat + 32 :=
      toNat_ofNat_valid (by omega)
    rw [if_neg (fun hc => by
      have h3 : 65 ≤ (Char.ofNat (c.toNat + 32)).toNat := char_le_toNat.mp hc.1
      have h4 : (Char.ofNat (c.toNat + 32)).toNat ≤ 90 := char_le_toNat.mp hc.2
      omega)]
  · simp only [if_neg h]

theorem isWordChar_upperChar (c : Char) : isWordChar (upperChar c) = isWordChar c := by
  unfold upperChar
  by_cases h : 'a' ≤ c ∧ c ≤ 'z'
  · rw [if_pos h]
    have h1 : 97 ≤ c.toNat := char_le_toNat.mp h.1
    have h2 : c.toNat ≤ 122 := char_le_toNat.mp h.2
    have hval : (Char.ofNat (c.toNat - 32)).toNat = c.toNat - 32 :=
      toNat_ofNat_valid (by omega)
    have hl : isWordChar (Char.ofNat (c.toNat - 32)) = true := by
      simp only [isWordChar, hval, Bool.or_eq_true, Bool.and_eq_true,
        decide_eq_true_eq]
      omega
    have hr : isWordChar c = true := by
      simp only [isWordChar, Bool.or_eq_true, Bool.and_eq_true, decide_eq_true_eq]
      omega
    rw [hl, hr]
  · rw [if_neg h]

theorem isWordChar_lowerChar (c : Char) : isWordChar (lowerChar c) = isWordChar c := by
  unfold lowerChar
  by_cases h : 'A' ≤ c ∧ c ≤ 'Z'
  · rw [if_pos h]
    have h1 : 65 ≤ c.toNat := char_le_toNat.mp h.1
    have h2 : c.toNat ≤ 90 := char_le_toNat.mp h.2
    have hval : (Char.ofNat (c.toNat + 32)).toNat = c.toNat + 32 :=
      toNat_ofNat_valid (by omega)
    have hl : isWordChar (Char.ofNat (c.toNat + 32)) = true := by
      simp only [isWordChar, hval, Bool.or_eq_true, Bool.and_eq_true,
        decide_eq_true_eq]
      omega
    have hr : isWordChar c = true := by
      simp only [isWordChar, Bool.or_eq_true, Bool.and_eq_true, decide_eq_true_eq]
      omega
    rw [hl, hr]
  · rw [if_neg h]

theorem lowerL_upperL (s : List Char) : lowerL (upperL s) = lowerL s := by
  unfold lowerL upperL
  rw [List.map_map]
  exact List.map_congr_left (fun c _ => lowerChar_upperChar c)

theorem lowerL_lowerL (s : List Char) : lowerL (lowerL s) = lowerL s := by
  unfold lowerL
  rw [List.map_map]
  exact List.map_congr_left (fun c _ => lowerChar_lowerChar c)

theorem list_any_congr {α : Type} (l : List α) (f g : α → Bool)
    (h : ∀ x ∈ l, f x = g x) : l.any f = l.any g := by
  induction l with
  | nil => rfl
  | cons a t ih =>
    simp only [List.any_cons, h a (List.mem_cons_self a t),
      ih (fun x hx => h x (List.mem_cons_of_mem a hx))]

theorem kwAt_map_fold {f : Char → Char} (hf : ∀ c, lowerChar (f c) = lowerChar c)
    (kw t : List Char) : kwAt false kw (t.map f) = kwAt false kw t := by
  induction kw generalizing t with
  | nil => rfl
  | cons a as ih =>
    cases t with
    | nil => rfl
    | cons b bs =>
      simp only [List.map_cons, kwAt, charMatches, hf b, ih bs]
      simp

theorem wordAtIdx_map {f : Char → Char} (hf : ∀ c, isWordChar (f c) = isWordChar c)
    (s : List Char) (i : Nat) : wordAtIdx (s.map f) i = wordAtIdx s i := by
  unfold wordAtIdx
  rw [List.getElem?_map]
  cases s[i]? with
  | none => rfl
  | some c => simp [hf c]

theorem boundaryAt_map {f : Char → Char} (hf : ∀ c, isWordChar (f c) = isWordChar c)
    (s : List Char) (i : Nat) : boundaryAt (s.map f) i = boundaryAt s i := by
  unfold boundaryAt
  rw [wordAtIdx_map hf, wordAtIdx_map hf]

theorem wbTest_map {f : Char → Char} (hfold : ∀ c, lowerChar (f c) = lowerChar c)
    (hword : ∀ c, isWordChar (f c) = isWordChar c) (kw s : List Char) :
    wbTest false kw (s.map f) = wbTest false kw s := by
  unfold wbTest
  rw [List.length_map]
  refine list_any_congr _ _ _ (fun i _ => ?_)
  rw [boundaryAt_map hword, boundaryAt_map hword]
  have hdrop : (s.map f).drop i = (s.drop i).map f := (List.map_drop ..).symm
  rw [hdrop, kwAt_map_fold hfold]

/-! ### Claim theorems -/

/-- Claim C1, amended: `mergeGeneratedSection` is idempotent on
marker-clean documents — a prefix containing the intro heading, one
start marker, a middle and a suffix, where the prefix, middle, suffix
and the generated body contain no `<` character.  (Unrestricted
idempotence fails; see the counterexample.) -/
theorem mergeIdempotentOnCleanDocs (P M S G k : List Char)
    (hP : '<' ∉ P) (hM : '<' ∉ M) (hS : '<' ∉ S) (hG : '<' ∉ G)
    (hH : occursIn mHEADING P = true) :
    mergeGeneratedSection (mergeGeneratedSection (structuredDoc P M S) G k) G k
      = mergeGeneratedSection (structuredDoc P M S) G k := by
  rw [merge_structured hP hM hS hH]
  have hM' : '<' ∉ str "\n\n" ++ (G ++ str "\n\n") := by
    intro hmem
    rcases List.mem_append.mp hmem with h | h
    · simp [str] at h
    · rcases List.mem_append.mp h with h2 | h2
      · exact hG h2
      · simp [str] at h2
  have hS' : '<' ∉ trimEnd S ++ ['\n'] := by
    intro hmem
    rcases List.mem_append.mp hmem with h | h
    · exact hS (mem_trimEnd_subset h)
    · simp at h
  rw [merge_structured hP hM' hS' hH]
  rw [trimEnd_append_ws (by decide), trimEnd_idem]

/-- Witness for the amended C1 theorem at a concrete document. -/
theorem mergeIdempotentOnCleanDocsWitness :
    ('<' ∉ str "# Auto Node\n" ∧ '<' ∉ str "\nold\n" ∧ '<' ∉ str "\ntail"
      ∧ '<' ∉ str "- [[A]]" ∧ occursIn mHEADING (str "# Auto Node\n") = true)
    ∧ mergeGeneratedSection
        (mergeGeneratedSection
          (structuredDoc (str "# Auto Node\n") (str "\nold\n") (str "\ntail"))
          (str "- [[A]]") (str "kw"))
        (str "- [[A]]") (str "kw")
      = mergeGeneratedSection
          (structuredDoc (str "# Auto Node\n") (str "\nold\n") (str "\ntail"))
          (str "- [[A]]") (str "kw") :=
  ⟨by decide, mergeIdempotentOnCleanDocs _ _ _ _ _ (by decide) (by decide)
    (by decide) (by decide) (by decide)⟩

set_option maxRecDepth 8000 in
/-- Counterexample to claim C1 as stated: when the only occurrence of the
intro heading lies between the markers, the first merge deletes it and
the second merge prepends the intro block, so the second call changes
the text again. -/
theorem mergeIdempotenceFailure :
    mergeGeneratedSection
      (mergeGeneratedSection
        (str "<!-- auto-node:start -->\n# Auto Node\n<!-- auto-node:end -->")
        (str "x") (str "k"))
      (str "x") (str "k")
    ≠ mergeGeneratedSection
        (str "<!-- auto-node:start -->\n# Auto Node\n<!-- auto-node:end -->")
        (str "x") (str "k") := by decide

/-- Claim C2, amended: on a document with a well-formed marker pair that
marker normalization and intro insertion leave unchanged, the merge
keeps the content strictly before the start marker byte-identical and
keeps the content strictly after the end marker identical up to
trailing-whitespace trimming plus a single final newline (the final
`trimEnd() + newline` of step 5 — the claim as stated, which allows only
the step 1-2 rewrites in those regions, fails; see the counterexample). -/
theorem mergeContainment (P M S G k : List Char)
    (hP : '<' ∉ P) (hM : '<' ∉ M) (hS : '<' ∉ S)
    (hH : occursIn mHEADING P = true) :
    ∃ mid, mergeGeneratedSection (structuredDoc P M S) G k
      = P ++ (mSTART ++ (mid ++ (mEND ++ (trimEnd S ++ ['\n'])))) :=
  ⟨str "\n\n" ++ (G ++ str "\n\n"), by rw [merge_structured hP hM hS hH]; rfl⟩

/-- Witness for the amended C2 theorem at a concrete document. -/
theorem mergeContainmentWitness :
    ('<' ∉ str "before\n# Auto Node\n" ∧ '<' ∉ str "\nmid\n" ∧ '<' ∉ str "after  "
      ∧ occursIn mHEADING (str "before\n# Auto Node\n") = true)
    ∧ ∃ mid, mergeGeneratedSection
        (structuredDoc (str "before\n# Auto Node\n") (str "\nmid\n") (str "after  "))
        (str "- [[B]]") (str "kw")
      = str "before\n# Auto Node\n"
        ++ (mSTART ++ (mid ++ (mEND ++ (trimEnd (str "after  ") ++ ['\n'])))) :=
  ⟨by decide, mergeContainment _ _ _ _ _ (by decide) (by decide) (by decide) (by decide)⟩

set_option maxRecDepth 4000 in
/-- Counterexample to claim C2 as stated: marker normalization and intro
insertion leave the document unchanged (steps 1-2 are the identity
here), yet the region strictly after the end marker changes from
`"x "` to `"x\n"` — the trailing-whitespace trim of step 5 also rewrites
that region. -/
theorem mergeTrailingTrimFailure :
    normalizeMarkers (str "# Auto Node\n<!-- auto-node:start --><!-- auto-node:end -->x ")
      = str "# Auto Node\n<!-- auto-node:start --><!-- auto-node:end -->x "
    ∧ ensureIntroSection (str "# Auto Node\n<!-- auto-node:start --><!-- auto-node:end -->x ")
      = str "# Auto Node\n<!-- auto-node:start --><!-- auto-node:end -->x "
    ∧ firstIndexOf? mEND
        (str "# Auto Node\n<!-- auto-node:start --><!-- auto-node:end -->x ") = some 36
    ∧ List.drop (36 + 22)
        (str "# Auto Node\n<!-- auto-node:start --><!-- auto-node:end -->x ") = str "x "
    ∧ firstIndexOf? mEND
        (mergeGeneratedSection
          (str "# Auto Node\n<!-- auto-node:start --><!-- auto-node:end -->x ")
          (str "g") (str "k")) = some 41
    ∧ List.drop (41 + 22)
        (mergeGeneratedSection
          (str "# Auto Node\n<!-- auto-node:start --><!-- auto-node:end -->x ")
          (str "g") (str "k")) = str "x\n"
    ∧ (str "x\n" : List Char) ≠ str "x " := by decide

/-- Claim C4: after the marker-establishing step both markers are always
present, and whenever the first end-marker occurrence precedes the first
start-marker occurrence the merge returns the established text
unchanged. -/
theorem mergeDefensiveMarkerOrder (T G k : List Char) :
    (occursIn mSTART (establishedText T) = true
      ∧ occursIn mEND (establishedText T) = true)
    ∧ (∀ s e, firstIndexOf? mSTART (establishedText T) = some s →
        firstIndexOf? mEND (establishedText T) = some e → e < s →
        mergeGeneratedSection T G k = establishedText T) := by
  constructor
  · unfold establishedText
    dsimp only
    by_cases hc : (occursIn mSTART (ensureIntroSection (normalizeMarkers T))
        && occursIn mEND (ensureIntroSection (normalizeMarkers T))) = true
    · rw [if_pos hc]
      exact ⟨(Bool.and_eq_true .. |>.mp hc).1, (Bool.and_eq_true .. |>.mp hc).2⟩
    · rw [if_neg hc]
      constructor
      · rw [show trimEnd (ensureIntroSection (normalizeMarkers T)) ++ str "\n\n"
            ++ mSTART ++ ['\n'] ++ mEND ++ ['\n']
          = trimEnd (ensureIntroSection (normalizeMarkers T))
            ++ (str "\n\n" ++ (mSTART ++ (['\n'] ++ (mEND ++ ['\n']))))
          from by simp [List.append_assoc]]
        exact occursIn_append_right _ (occursIn_append_right _
          (occursIn_self_append _ _))
      · rw [show trimEnd (ensureIntroSection (normalizeMarkers T)) ++ str "\n\n"
            ++ mSTART ++ ['\n'] ++ mEND ++ ['\n']
          = trimEnd (ensureIntroSection (normalizeMarkers T))
            ++ (str "\n\n" ++ (mSTART ++ (['\n'] ++ (mEND ++ ['\n']))))
          from by simp [List.append_assoc]]
        exact occursIn_append_right _ (occursIn_append_right _
          (occursIn_append_right _ (occursIn_append_right _
            (occursIn_self_append _ _))))
  · intro s e hs he hlt
    simp only [mergeGeneratedSection]
    rw [hs, he]
    dsimp only
    rw [if_pos hlt]

/-- Witness for C4 at a document whose end marker precedes its start
marker. -/
theorem mergeDefensiveMarkerOrderWitness :
    (firstIndexOf? mSTART
        (establishedText (str "<!-- auto-node:end -->\n# Auto Node\n<!-- auto-node:start -->"))
        = some 35
      ∧ firstIndexOf? mEND
        (establishedText (str "<!-- auto-node:end -->\n# Auto Node\n<!-- auto-node:start -->"))
        = some 0
      ∧ 0 < 35)
    ∧ mergeGeneratedSection
        (str "<!-- auto-node:end -->\n# Auto Node\n<!-- auto-node:start -->")
        (str "g") (str "k")
      = establishedText (str "<!-- auto-node:end -->\n# Auto Node\n<!-- auto-node:start -->") :=
  ⟨by decide,
    (mergeDefensiveMarkerOrder
      (str "<!-- auto-node:end -->\n# Auto Node\n<!-- auto-node:start -->")
      (str "g") (str "k")).2 35 0 (by decide) (by decide) (by decide)⟩

/-- Claim C6: with rule keyword `cat` in whole-word mode (either case
sensitivity), the matcher rejects a document whose body is
`concatenate` whenever its title and path contain no whole-word `cat`,
and accepts any document whose body is `a cat sat`. -/
theorem wholeWordBoundary (basename path : List Char) (cs : Bool) :
    (wbTest cs (str "cat") basename = false →
      wbTest cs (str "cat") path = false →
      containsKeyword basename path (str "concatenate")
        ⟨str "cat", cs, true⟩ = false)
    ∧ containsKeyword basename path (str "a cat sat")
        ⟨str "cat", cs, true⟩ = true := by
  constructor
  · intro hb hp
    cases cs with
    | false =>
      show (wbTest false (str "cat") (str "concatenate")
          || wbTest false (str "cat") basename
          || wbTest false (str "cat") path) = false
      rw [show wbTest false (str "cat") (str "concatenate") = false from by decide,
        hb, hp]
      rfl
    | true =>
      show (wbTest true (str "cat") (str "concatenate")
          || wbTest true (str "cat") basename
          || wbTest true (str "cat") path) = false
      rw [show wbTest true (str "cat") (str "concatenate") = false from by decide,
        hb, hp]
      rfl
  · cases cs with
    | false =>
      show (wbTest false (str "cat") (str "a cat sat")
          || wbTest false (str "cat") basename
          || wbTest false (str "cat") path) = true
      rw [show wbTest false (str "cat") (str "a cat sat") = true from by decide]
      simp
    | true =>
      show (wbTest true (str "cat") (str "a cat sat")
          || wbTest true (str "cat") basename
          || wbTest true (str "cat") path) = true
      rw [show wbTest true (str "cat") (str "a cat sat") = true from by decide]
      simp

/-- Witness for C6 at a concrete document (title `note`, path
`note.md`). -/
theorem wholeWordBoundaryWitness :
    (wbTest false (str "cat") (str "note") = false
      ∧ wbTest false (str "cat") (str "note.md") = false)
    ∧ containsKeyword (str "note") (str "note.md") (str "concatenate")
        ⟨str "cat", false, true⟩ = false
    ∧ containsKeyword (str "note") (str "note.md") (str "a cat sat")
        ⟨str "cat", false, true⟩ = true :=
  ⟨⟨by decide, by decide⟩,
    (wholeWordBoundary (str "note") (str "note.md") false).1 (by decide) (by decide),
    (wholeWordBoundary (str "note") (str "note.md") false).2⟩

/-- Claim C9: with a case-insensitive rule, the matcher result is
unchanged when the document body is uniformly uppercased or uniformly
lowercased (ASCII case model). -/
theorem matcherCaseFoldSymmetry (basename path content : List Char)
    (cfg : AutoNodeConfig) (h : cfg.caseSensitive = false) :
    containsKeyword basename path (upperL content) cfg
        = containsKeyword basename path content cfg
    ∧ containsKeyword basename path (lowerL content) cfg
        = containsKeyword basename path content cfg := by
  obtain ⟨kw, cs, ww⟩ := cfg
  simp only at h
  subst h
  constructor
  · cases ww with
    | false =>
      show (occursIn (lowerL kw) (lowerL (upperL content))
          || occursIn (lowerL kw) (lowerL basename)
          || occursIn (lowerL kw) (lowerL path))
        = (occursIn (lowerL kw) (lowerL content)
          || occursIn (lowerL kw) (lowerL basename)
          || occursIn (lowerL kw) (lowerL path))
      rw [lowerL_upperL]
    | true =>
      show (wbTest false (lowerL kw) (upperL content)
          || wbTest false (lowerL kw) basename
          || wbTest false (lowerL kw) path)
        = (wbTest false (lowerL kw) content
          || wbTest false (lowerL kw) basename
          || wbTest false (lowerL kw) path)
      rw [show (upperL content) = content.map upperChar from rfl,
        wbTest_map lowerChar_upperChar isWordChar_upperChar]
  · cases ww with
    | false =>
      show (occursIn (lowerL kw) (lowerL (lowerL content))
          || occursIn (lowerL kw) (lowerL basename)
          || occursIn (lowerL kw) (lowerL path))
        = (occursIn (lowerL kw) (lowerL content)
          || occursIn (lowerL kw) (lowerL basename)
          || occursIn (lowerL kw) (lowerL path))
      rw [lowerL_lowerL]
    | true =>
      show (wbTest false (lowerL kw) (lowerL content)
          || wbTest false (lowerL kw) basename
          || wbTest false (lowerL kw) path)
        = (wbTest false (lowerL kw) content
          || wbTest false (lowerL kw) basename
          || wbTest false (lowerL kw) path)
      rw [show (lowerL content) = content.map lowerChar from rfl,
        wbTest_map lowerChar_lowerChar isWordChar_lowerChar]

/-- Witness for C9 at a concrete document and rule. -/
theorem matcherCaseFoldSymmetryWitness :
    ((⟨str "text", false, false⟩ : AutoNodeConfig).caseSensitive = false)
    ∧ (containsKeyword (str "t") (str "t.md") (upperL (str "Some Text"))
          ⟨str "text", false, false⟩
        = containsKeyword (str "t") (str "t.md") (str "Some Text")
            ⟨str "text", false, false⟩
      ∧ containsKeyword (str "t") (str "t.md") (lowerL (str "Some Text"))
          ⟨str "text", false, false⟩
        = containsKeyword (str "t") (str "t.md") (str "Some Text")
            ⟨str "text", false, false⟩) :=
  ⟨rfl, matcherCaseFoldSymmetry (str "t") (str "t.md") (str "Some Text")
    ⟨str "text", false, false⟩ rfl⟩

/-! ### Lemmas about the synchronization engine state -/

theorem resolve_preserves_isUpdating (st : PluginState) (f : VaultFile) :
    (resolveAutoNodeRecord st f).2.isUpdating = st.isUpdating := by
  unfold resolveAutoNodeRecord
  cases getRecord st.nodeRecords f.path with
  | some r => rfl
  | none =>
    cases f.frontmatter with
    | none => rfl
    | some cfg => rfl

theorem removeUpdating_addUpdating (st : PluginState) (p : List Char)
    (h : st.isUpdating.contains p = false) :
    (removeUpdating (addUpdating st p) p).isUpdating = st.isUpdating := by
  have hnotmem : p ∉ st.isUpdating := by
    intro hmem
    rw [List.contains_eq_any_beq] at h
    simp only [List.any_eq_false] at h
    have h2 := h p hmem
    simp at h2
  unfold addUpdating removeUpdating
  rw [if_neg (fun hc => Bool.false_ne_true (h ▸ hc))]
  have hall : ∀ q ∈ st.isUpdating, (!(q = p : Bool)) = true := fun q hq => by
    simp only [Bool.not_eq_true', decide_eq_false_iff_not]
    exact fun he => hnotmem (he ▸ hq)
  simp only [List.filter_cons]
  rw [if_neg (by simp)]
  exact List.filter_eq_self.mpr hall

/-- Claim C10: a call to `refreshAutoNode` that passes the initial
`isUpdating` guard leaves the guard set exactly as it found it, on the
normal path and on every throwing path — the `finally` always removes
the entry the `try` added. -/
theorem isUpdatingGuardRestored (st : PluginState) (v : Vault) (file : VaultFile)
    (h : st.isUpdating.contains file.path = false) :
    (refreshAutoNode st v file).st.isUpdating = st.isUpdating := by
  unfold refreshAutoNode
  rw [if_neg (fun hc => Bool.false_ne_true (h ▸ hc))]
  have hres := resolve_preserves_isUpdating st file
  cases hpair : resolveAutoNodeRecord st file with
  | mk r st' =>
    rw [hpair] at hres
    cases r with
    | none => simpa using hres
    | some record =>
      have h' : st'.isUpdating.contains file.path = false := by rw [hres]; exact h
      have hrem : (removeUpdating (addUpdating st' file.path) file.path).isUpdating
          = st.isUpdating := by
        rw [removeUpdating_addUpdating st' file.path h', hres]
      dsimp only
      cases scanMatches file.path record.config v.files with
      | error e => simpa using hrem
      | ok links =>
        dsimp only
        cases v.readFile file with
        | error e => simpa using hrem
        | ok current =>
          dsimp only
          by_cases heq : mergeGeneratedSection current (generatedSection links)
              record.keyword = current
          · rw [if_pos heq]; exact hrem
          · rw [if_neg heq]; exact hrem

/-- Witness for C10 at a concrete state, vault and file. -/
theorem isUpdatingGuardRestoredWitness :
    (PluginState.mk [] [] []).isUpdating.contains (str "N.md") = false
    ∧ (refreshAutoNode ⟨[], [], []⟩ ⟨[], []⟩
        ⟨str "N.md", str "N", str "", false, none⟩).st.isUpdating
      = (PluginState.mk [] [] []).isUpdating :=
  ⟨by decide, isUpdatingGuardRestored ⟨[], [], []⟩ ⟨[], []⟩
    ⟨str "N.md", str "N", str "", false, none⟩ (by decide)⟩

/-- Claim C5, amended: on a successful `refreshAutoNode` run the target
is written back exactly when the merge output differs byte for byte from
its current text, and the written text is the merge output.  (The
further consequence claimed — that rerunning with no document changes
never writes — fails, because the merge is not idempotent on every
document; see the counterexample.) -/
theorem writeIffChanged (st st' : PluginState) (v : Vault) (file : VaultFile)
    (record : AutoNodeRecord) (links : List (List Char)) (current : List Char)
    (hguard : st.isUpdating.contains file.path = false)
    (hres : resolveAutoNodeRecord st file = (some record, st'))
    (hscan : scanMatches file.path record.config v.files = .ok links)
    (hread : v.readFile file = .ok current) :
    (refreshAutoNode st v file).writes
      = (if mergeGeneratedSection current (generatedSection links) record.keyword
            = current
         then []
         else [(file.path,
           mergeGeneratedSection current (generatedSection links) record.keyword)])
    ∧ (refreshAutoNode st v file).vault
      = (if mergeGeneratedSection current (generatedSection links) record.keyword
            = current
         then v
         else v.modify file.path
           (mergeGeneratedSection current (generatedSection links) record.keyword)) := by
  unfold refreshAutoNode
  rw [if_neg (fun hc => Bool.false_ne_true (hguard ▸ hc)), hres]
  dsimp only
  rw [hscan]
  dsimp only
  rw [hread]
  dsimp only
  by_cases heq : mergeGeneratedSection current (generatedSection links)
      record.keyword = current
  · rw [if_pos heq, if_pos heq, if_pos heq]
    exact ⟨rfl, rfl⟩
  · rw [if_neg heq, if_neg heq, if_neg heq]
    exact ⟨rfl, rfl⟩

/-- Witness for the amended C5 theorem at a concrete vault with one
matching note: the merge output differs, so exactly one write happens. -/
theorem writeIffChangedWitness :
    ((PluginState.mk [] [] []).isUpdating.contains (str "N.md") = false
      ∧ resolveAutoNodeRecord ⟨[], [], []⟩
          ⟨str "N.md", str "N",
            str "# Auto Node\n<!-- auto-node:start -->\n<!-- auto-node:end -->",
            false, some ⟨str "alpha", false, false⟩⟩
        = (some ⟨str "N.md", str "alpha", false, false⟩,
            ⟨[], [⟨str "N.md", str "alpha", false, false⟩],
              [⟨str "N.md", str "alpha", false, false⟩]⟩))
    ∧ (refreshAutoNode ⟨[], [], []⟩
        ⟨[⟨str "A.md", str "A", str "alpha info", false, none⟩,
          ⟨str "N.md", str "N",
            str "# Auto Node\n<!-- auto-node:start -->\n<!-- auto-node:end -->",
            false, some ⟨str "alpha", false, false⟩⟩], []⟩
        ⟨str "N.md", str "N",
          str "# Auto Node\n<!-- auto-node:start -->\n<!-- auto-node:end -->",
          false, some ⟨str "alpha", false, false⟩⟩).writes
      = [(str "N.md",
          str "# Auto Node\n<!-- auto-node:start -->\n\n- [[A]]\n\n<!-- auto-node:end -->\n")] := by
  refine ⟨⟨by decide, by decide⟩, ?_⟩
  have h := writeIffChanged ⟨[], [] ,[]⟩
    ⟨[], [⟨str "N.md", str "alpha", false, false⟩],
      [⟨str "N.md", str "alpha", false, false⟩]⟩
    ⟨[⟨str "A.md", str "A", str "alpha info", false, none⟩,
      ⟨str "N.md", str "N",
        str "# Auto Node\n<!-- auto-node:start -->\n<!-- auto-node:end -->",
        false, some ⟨str "alpha", false, false⟩⟩], []⟩
    ⟨str "N.md", str "N",
      str "# Auto Node\n<!-- auto-node:start -->\n<!-- auto-node:end -->",
      false, some ⟨str "alpha", false, false⟩⟩
    ⟨str "N.md", str "alpha", false, false⟩
    [str "[[A]]"]
    (str "# Auto Node\n<!-- auto-node:start -->\n<!-- auto-node:end -->")
    (by decide) (by decide) (by rfl) (by rfl)
  rw [h.1]
  decide

set_option maxRecDepth 8000 in
/-- Counterexample to the second half of claim C5 as stated: after a
successful synchronization of an auto-node whose only intro heading sat
between the markers, rerunning with no intervening document change
writes again (the merge is not idempotent there). -/
theorem rerunWritesAgain :
    (refreshAutoNode ⟨[], [], []⟩
        ⟨[⟨str "C.md", str "C",
            str "<!-- auto-node:start -->\n# Auto Node\n<!-- auto-node:end -->",
            false, some ⟨str "zz", false, false⟩⟩], []⟩
        ⟨str "C.md", str "C",
          str "<!-- auto-node:start -->\n# Auto Node\n<!-- auto-node:end -->",
          false, some ⟨str "zz", false, false⟩⟩).writes ≠ []
    ∧ (refreshAutoNode
        (refreshAutoNode ⟨[], [], []⟩
          ⟨[⟨str "C.md", str "C",
              str "<!-- auto-node:start -->\n# Auto Node\n<!-- auto-node:end -->",
              false, some ⟨str "zz", false, false⟩⟩], []⟩
          ⟨str "C.md", str "C",
            str "<!-- auto-node:start -->\n# Auto Node\n<!-- auto-node:end -->",
            false, some ⟨str "zz", false, false⟩⟩).st
        (refreshAutoNode ⟨[], [], []⟩
          ⟨[⟨str "C.md", str "C",
              str "<!-- auto-node:start -->\n# Auto Node\n<!-- auto-node:end -->",
              false, some ⟨str "zz", false, false⟩⟩], []⟩
          ⟨str "C.md", str "C",
            str "<!-- auto-node:start -->\n# Auto Node\n<!-- auto-node:end -->",
            false, some ⟨str "zz", false, false⟩⟩).vault
        ⟨str "C.md", str "C",
          str "<!-- auto-node:start -->\n# Auto Node\n<!-- auto-node:end -->",
          false, some ⟨str "zz", false, false⟩⟩).writes ≠ [] := by decide

/-- Claim C3, amended: a read failure is not isolated — when refreshing
one auto-node throws (e.g. a candidate read fails), the exception
propagates out of the `for` loop of `refreshAllAutoNodes`, so the
remaining auto-nodes of the pass are not processed at all; the failure
surfaces at pass level (where `scheduleRefresh` catches and notifies). -/
theorem refreshLoopAbortsOnError (st : PluginState) (v : Vault)
    (f : VaultFile) (rest : List VaultFile)
    (hfail : (refreshAutoNode st v f).failed = true) :
    refreshLoop st v (f :: rest) = refreshAutoNode st v f := by
  unfold refreshLoop
  rw [if_pos hfail]

/-- Witness for the amended C3 theorem: the first auto-node's scan hits
an unreadable note, and the second auto-node in the list is never
refreshed. -/
theorem refreshLoopAbortsOnErrorWitness :
    ((refreshAutoNode ⟨[], [], []⟩
        ⟨[⟨str "bad.md", str "bad", str "alpha", true, none⟩,
          ⟨str "N1.md", str "N1",
            str "# Auto Node\n<!-- auto-node:start -->\n<!-- auto-node:end -->",
            false, some ⟨str "alpha", false, false⟩⟩,
          ⟨str "N2.md", str "N2",
            str "# Auto Node\n<!-- auto-node:start -->\n<!-- auto-node:end -->",
            false, some ⟨str "beta", false, false⟩⟩], []⟩
        ⟨str "N1.md", str "N1",
          str "# Auto Node\n<!-- auto-node:start -->\n<!-- auto-node:end -->",
          false, some ⟨str "alpha", false, false⟩⟩).failed = true)
    ∧ refreshLoop ⟨[], [], []⟩
        ⟨[⟨str "bad.md", str "bad", str "alpha", true, none⟩,
          ⟨str "N1.md", str "N1",
            str "# Auto Node\n<!-- auto-node:start -->\n<!-- auto-node:end -->",
            false, some ⟨str "alpha", false, false⟩⟩,
          ⟨str "N2.md", str "N2",
            str "# Auto Node\n<!-- auto-node:start -->\n<!-- auto-node:end -->",
            false, some ⟨str "beta", false, false⟩⟩], []⟩
        [⟨str "N1.md", str "N1",
            str "# Auto Node\n<!-- auto-node:start -->\n<!-- auto-node:end -->",
            false, some ⟨str "alpha", false, false⟩⟩,
          ⟨str "N2.md", str "N2",
            str "# Auto Node\n<!-- auto-node:start -->\n<!-- auto-node:end -->",
            false, some ⟨str "beta", false, false⟩⟩]
      = refreshAutoNode ⟨[], [], []⟩
          ⟨[⟨str "bad.md", str "bad", str "alpha", true, none⟩,
            ⟨str "N1.md", str "N1",
              str "# Auto Node\n<!-- auto-node:start -->\n<!-- auto-node:end -->",
              false, some ⟨str "alpha", false, false⟩⟩,
            ⟨str "N2.md", str "N2",
              str "# Auto Node\n<!-- auto-node:start -->\n<!-- auto-node:end -->",
              false, some ⟨str "beta", false, false⟩⟩], []⟩
          ⟨str "N1.md", str "N1",
            str "# Auto Node\n<!-- auto-node:start -->\n<!-- auto-node:end -->",
            false, some ⟨str "alpha", false, false⟩⟩ :=
  ⟨by decide, refreshLoopAbortsOnError _ _ _ _ (by decide)⟩

set_option maxRecDepth 8000 in
/-- Counterexample to claim C3 as stated: with one unreadable note in the
vault, the whole pass fails and performs no write, although the same
pass with the note readable writes the auto-node — the unreadable note
is not skipped and the pass does not continue. -/
theorem scanFailureAbortsPass :
    (refreshAllAutoNodes ⟨[], [], []⟩
        ⟨[⟨str "bad.md", str "bad", str "nothing", true, none⟩,
          ⟨str "N.md", str "N",
            str "# Auto Node\n<!-- auto-node:start -->\n<!-- auto-node:end -->",
            false, some ⟨str "alpha", false, false⟩⟩,
          ⟨str "A.md", str "A", str "alpha info", false, none⟩], []⟩).failed = true
    ∧ (refreshAllAutoNodes ⟨[], [], []⟩
        ⟨[⟨str "bad.md", str "bad", str "nothing", true, none⟩,
          ⟨str "N.md", str "N",
            str "# Auto Node\n<!-- auto-node:start -->\n<!-- auto-node:end -->",
            false, some ⟨str "alpha", false, false⟩⟩,
          ⟨str "A.md", str "A", str "alpha info", false, none⟩], []⟩).writes = []
    ∧ (refreshAllAutoNodes ⟨[], [], []⟩
        ⟨[⟨str "bad.md", str "bad", str "nothing", false, none⟩,
          ⟨str "N.md", str "N",
            str "# Auto Node\n<!-- auto-node:start -->\n<!-- auto-node:end -->",
            false, some ⟨str "alpha", false, false⟩⟩,
          ⟨str "A.md", str "A", str "alpha info", false, none⟩], []⟩).writes ≠ [] := by
  decide

theorem countPasses_pending (delay : Nat) (rest : List Nat) :
    ∀ t, List.Chain' (fun a b => b < a + delay) (t :: rest) →
      countPasses delay rest (some (t + delay)) = 1 := by
  induction rest with
  | nil => intro t _; rfl
  | cons u rest' ih =>
    intro t hchain
    have hu : u < t + delay := (List.chain'_cons.mp hchain).1
    unfold countPasses
    rw [if_neg (by omega)]
    exact ih u (List.chain'_cons.mp hchain).2

/-- Claim C7: N change signals each arriving strictly less than the
debounce delay after the previous one produce exactly one
synchronization pass; each signal that finds a pending timer cancels it
and re-arms with the full delay (the re-arm is the `some` branch of the
model). -/
theorem debounceCoalesces (delay : Nat) (ts : List Nat) (hne : ts ≠ [])
    (hchain : List.Chain' (fun a b => b < a + delay) ts) :
    countPasses delay ts none = 1 := by
  cases ts with
  | nil => exact absurd rfl hne
  | cons t rest =>
    unfold countPasses
    exact countPasses_pending delay rest t hchain

/-- Witness for C7: four signals in a burst, 500-unit delay, one pass. -/
theorem debounceCoalescesWitness :
    (([0, 100, 200, 300] : List Nat) ≠ []
      ∧ List.Chain' (fun a b => b < a + 500) [0, 100, 200, 300])
    ∧ countPasses 500 [0, 100, 200, 300] none = 1 :=
  ⟨⟨by decide, by norm_num [List.chain'_cons]⟩,
    debounceCoalesces 500 [0, 100, 200, 300] (by decide)
      (by norm_num [List.chain'_cons])⟩

/-- Claim C8: when the normalized desired path differs from the current
path and something already exists there, `renameAutoNodeFile` surfaces
an error and leaves the record map, the persisted snapshot and the vault
untouched. -/
theorem renameConflictAtomic (np : List Char → Option (List Char))
    (st : PluginState) (v : Vault) (currentPath desiredPath : List Char)
    (record : AutoNodeRecord) (normalized : List Char)
    (hrec : getRecord st.nodeRecords currentPath = some record)
    (hfile : (v.find? currentPath).isSome = true)
    (htrim : trim desiredPath ≠ [])
    (hnp : np (ensureMarkdownExtension (trim desiredPath)) = some normalized)
    (hne : normalized ≠ currentPath)
    (hconf : v.abstractExists normalized = true) :
    renameAutoNodeFile np st v currentPath desiredPath = (.error (), st, v) := by
  unfold renameAutoNodeFile
  rw [hrec]
  obtain ⟨f, hf⟩ := Option.isSome_iff_exists.mp hfile
  rw [hf]
  dsimp only
  rw [if_neg htrim, hnp]
  dsimp only
  rw [if_neg hne, if_pos hconf]

/-- Witness for C8: renaming `N.md` onto the occupied path `X.md` fails
with no state change. -/
theorem renameConflictAtomicWitness :
    (getRecord [⟨str "N.md", str "k", false, false⟩] (str "N.md")
        = some ⟨str "N.md", str "k", false, false⟩
      ∧ trim (str "X") ≠ []
      ∧ (str "X.md" : List Char) ≠ str "N.md")
    ∧ renameAutoNodeFile (fun s => some s)
        ⟨[], [⟨str "N.md", str "k", false, false⟩], [⟨str "N.md", str "k", false, false⟩]⟩
        ⟨[⟨str "N.md", str "N", str "", false, none⟩,
          ⟨str "X.md", str "X", str "", false, none⟩], []⟩
        (str "N.md") (str "X")
      = (.error (),
          ⟨[], [⟨str "N.md", str "k", false, false⟩], [⟨str "N.md", str "k", false, false⟩]⟩,
          ⟨[⟨str "N.md", str "N", str "", false, none⟩,
            ⟨str "X.md", str "X", str "", false, none⟩], []⟩) :=
  ⟨⟨by decide, by decide, by decide⟩,
    renameConflictAtomic (fun s => some s) _ _ _ _
      ⟨str "N.md", str "k", false, false⟩ (str "X.md")
      (by decide) (by decide) (by decide) (by rfl) (by decide) (by decide)⟩

end AutoNode
